import Mathlib

/-!
Shallow embedding of `src/git_incremental_deploy.py` (a git-to-directory
incremental deployment tool) and verification of its specification claims.

Modelling conventions:
- A target directory's file system is an association list `Files` from relative
  filename to file contents (a string standing for the file's bytes).
- The git repository (an external collaborator, accessed through the gitpython
  `Repo`/`Git` objects) is a record `Repo` of pure functions. `Repo.resolve`
  models `repo.commit(identifier)`: `none` means gitpython raises (`BadName`)
  for that identifier — it never returns a non-`Commit` value, so the source's
  `commit.__class__ is git.Commit` checks are modelled as always passing when
  resolution succeeds.
- Fallible Python code (uncaught exceptions) is modelled with `Except`.
  An `IOError` during a file write is modelled by the flag `Dir.write_ok`;
  a connection failure in `Directory.connect` by `Dir.connect_ok`; a transport
  failure while copying one particular file by membership in `Dir.fail_copy`.
- The orchestration in the `if __name__ == "__main__"` block is modelled by
  `runMain`, starting from the already-parsed `commit_id` variable and flag
  list (argument parsing itself is out of scope).
-/

/-- Python string slice `contents[:-1]`: drop the final character, whatever it
is (not only a newline). -/
def dropLastChar (s : String) : String := String.mk s.data.dropLast

/-- A target directory's file store: relative filename ↦ contents. -/
abbrev Files := List (String × String)

/-- Lookup of a filename in a file store. -/
def lookupF : Files → String → Option String
  | [], _ => none
  | (k, v) :: rest, k' => if k = k' then some v else lookupF rest k'

/-- Remove a filename from a file store (no-op when absent, like the
`os.path.exists` guarded `os.remove`). -/
def eraseF : Files → String → Files
  | [], _ => []
  | (k, v) :: rest, k' => if k = k' then eraseF rest k' else (k, v) :: eraseF rest k'

/-- Create or overwrite a file in a file store (`open(path, "w")` semantics). -/
def setF (fs : Files) (k v : String) : Files := (k, v) :: eraseF fs k

theorem lookupF_setF_self (fs : Files) (k v : String) :
    lookupF (setF fs k v) k = some v := by
  simp [setF, lookupF]

theorem lookupF_eraseF_self (fs : Files) (k : String) :
    lookupF (eraseF fs k) k = none := by
  induction fs with
  | nil => rfl
  | cons p rest ih =>
      obtain ⟨a, b⟩ := p
      by_cases h : a = k <;> simp [eraseF, lookupF, h, ih]

theorem lookupF_eraseF_ne (fs : Files) (k k' : String) (h : k' ≠ k) :
    lookupF (eraseF fs k) k' = lookupF fs k' := by
  induction fs with
  | nil => rfl
  | cons p rest ih =>
      obtain ⟨a, b⟩ := p
      simp only [eraseF, lookupF]
      by_cases hak : a = k
      · rw [if_pos hak, ih, if_neg (fun hak' : a = k' => h (hak'.symm.trans hak))]
      · rw [if_neg hak]
        simp only [lookupF]
        by_cases hak' : a = k'
        · rw [if_pos hak', if_pos hak']
        · rw [if_neg hak', if_neg hak', ih]

theorem lookupF_setF_ne (fs : Files) (k k' v : String) (h : k' ≠ k) :
    lookupF (setF fs k v) k' = lookupF fs k' := by
  simp only [setF, lookupF]
  rw [if_neg (fun hkk : k = k' => h hkk.symm)]
  exact lookupF_eraseF_ne fs k k' h

theorem eraseF_eraseF (fs : Files) (k : String) :
    eraseF (eraseF fs k) k = eraseF fs k := by
  induction fs with
  | nil => rfl
  | cons p rest ih =>
      obtain ⟨a, b⟩ := p
      by_cases h : a = k <;> simp [eraseF, h, ih]

theorem eraseF_setF (fs : Files) (k v : String) :
    eraseF (setF fs k v) k = eraseF fs k := by
  simp [setF, eraseF, eraseF_eraseF]

/-- An opaque revision handle (gitpython `git.Commit`), identified by its hex
identifier. -/
structure Commit where
  hexsha : String
deriving DecidableEq, Repr

/-- One entry of a gitpython diff (`item` in `Directory.deploy_diff`). -/
structure DiffItem where
  a_path : String
  deleted_file : Bool
  rename_from : Option String
  rename_to : Option String
deriving DecidableEq, Repr

/-- The local git repository, the external revision provider. `resolve`
models `repo.commit(id)` (`none` = gitpython raises); `head` models
`repo.head.commit`; `diff` models `commit_a.diff(commit_b)`; `ls_files`
models `Git(config.path).ls_files()` — the listing of the repository's
index / working tree, which takes no revision argument; `source_contents p`
is the bytes of the working-tree file `os.path.join(config.path, p)` that
`copy_file` streams from; `spec_listFiles` is NOT called by the code: it
models the specification's revision provider operation
`listFiles(at: Revision)` ("enumerate all tracked files at a commit"), kept
for comparison with what the code actually copies. -/
structure Repo where
  resolve : String → Option Commit
  head : Commit
  diff : Commit → Commit → List DiffItem
  ls_files : List String
  source_contents : String → String
  spec_listFiles : Commit → List String

/-- Connection mode of a target directory: `loc` is `connection_mode is None`
(plain local directory), `ftp` is `connection_mode == "FTP"`. -/
inductive ConnMode
  | loc
  | ftp
deriving DecidableEq, Repr

/-- Uncaught Python exception kinds relevant to the embedding. -/
inductive Err
  | resolution
  | connectErr
  | writeErr
  | readErr
  | copyErr
  | renameErr
  | deleteErr
deriving DecidableEq, Repr

/-- One target directory (`class Directory`). `files` is its file store;
`commit` is the `self.commit` cache (`__init__` sets it to `None`);
`connect_ok`, `write_ok` and `fail_copy` model the transport fault
possibilities (see the file header). -/
structure Dir where
  path : String
  mode : ConnMode
  files : Files
  commit : Option Commit
  connect_ok : Bool
  write_ok : Bool
  fail_copy : List String
deriving DecidableEq, Repr

/-- `Directory.LOCK_FILE`. -/
def LOCK_FILE : String := ".git_lock"

/-- `Directory.COMMIT_FILE`. -/
def COMMIT_FILE : String := ".git_commit"

/-- `Directory._check_file_exists`: presence of a single file at the target
root (local `os.path.exists`; FTP `mlsd` listing scan). -/
def Dir.check_file_exists (d : Dir) (filename : String) : Bool :=
  (lookupF d.files filename).isSome

/-- `Directory.check_locked`: check for the lock file. -/
def Dir.check_locked (d : Dir) : Bool :=
  d.check_file_exists LOCK_FILE

/-- `Directory.connect`: no-op for a local directory; for FTP it may raise
(missing host, refused session), modelled by `connect_ok`. -/
def Dir.connect (d : Dir) : Except Err Dir :=
  match d.mode with
  | ConnMode.loc => Except.ok d
  | ConnMode.ftp => if d.connect_ok then Except.ok d else Except.error Err.connectErr

/-- `Directory._read_root_dir_file_contents`: read the whole file (local
line-concatenation or FTP `retrbinary`), then return `contents[:-1]` — the
last character is dropped unconditionally. Reading a missing file raises. -/
def Dir.read_root_dir_file_contents (d : Dir) (filename : String) : Except Err String :=
  match lookupF d.files filename with
  | some contents => Except.ok (dropLastChar contents)
  | none => Except.error Err.readErr

/-- `Directory.write_new_file`: create or overwrite `filename` with
`contents`; no newline is appended. An `IOError` is modelled by
`write_ok = false`. -/
def Dir.write_new_file (d : Dir) (filename contents : String) : Except Err Dir :=
  if d.write_ok then Except.ok { d with files := setF d.files filename contents }
  else Except.error Err.writeErr

/-- `Directory.lock`: write the lock file with sentinel content `"locked"`;
an `IOError` is caught and reported as `false`, the directory unchanged. -/
def Dir.lock (d : Dir) : Bool × Dir :=
  match d.write_new_file LOCK_FILE "locked" with
  | Except.ok d' => (true, d')
  | Except.error _ => (false, d)

/-- `Directory.copy_file`: stream the bytes of the working-tree source file
(already resolved to `contents` by the caller) into `filename` at the target,
creating intermediate directories. A transport failure for this particular
file is modelled by membership in `fail_copy`. -/
def Dir.copy_file (d : Dir) (filename contents : String) : Except Err Dir :=
  if filename ∈ d.fail_copy then Except.error Err.copyErr
  else Except.ok { d with files := setF d.files filename contents }

/-- `Directory.rename_file`: `pass` (explicit no-op) for a local directory;
a native FTP rename otherwise, which raises when the old name is absent. -/
def Dir.rename_file (d : Dir) (oldname newname : String) : Except Err Dir :=
  match d.mode with
  | ConnMode.loc => Except.ok d
  | ConnMode.ftp =>
      match lookupF d.files oldname with
      | some contents =>
          Except.ok { d with files := setF (eraseF d.files oldname) newname contents }
      | none => Except.error Err.renameErr

/-- `Directory.delete_file`: the whole deletion is gated on
`self.check_locked()` — when the lock marker is absent nothing at all is
removed. Locally the `os.path.exists` guard makes deletion of a missing file
a silent no-op; over FTP `handle.delete` raises (`error_perm`) for a missing
file. -/
def Dir.delete_file (d : Dir) (filename : String) : Except Err Dir :=
  if d.check_locked then
    match d.mode with
    | ConnMode.loc => Except.ok { d with files := eraseF d.files filename }
    | ConnMode.ftp =>
        match lookupF d.files filename with
        | some _ => Except.ok { d with files := eraseF d.files filename }
        | none => Except.error Err.deleteErr
  else Except.ok d

/-- `Directory.abort`: delete the lock file, then close the connection. The
lock-file delete can never raise (the delete is gated on the lock's own
presence), so the error branch here is unreachable. -/
def Dir.abort (d : Dir) : Dir :=
  match d.delete_file LOCK_FILE with
  | Except.ok d' => d'
  | Except.error _ => d

/-- `Directory.check_valid_commit`: `false` when the commit marker file is
absent; otherwise read it and call `repo.commit` on the contents — with no
`try`/`except`, so an unresolvable identifier propagates gitpython's
exception out of this method. On success the resolved commit is cached in
`self.commit` and the result is `true` (the `__class__ is git.Commit` check
always passes for a resolved commit). -/
def Dir.check_valid_commit (d : Dir) (repo : Repo) : Except Err (Bool × Dir) :=
  if d.check_file_exists COMMIT_FILE then
    match d.read_root_dir_file_contents COMMIT_FILE with
    | Except.error e => Except.error e
    | Except.ok commit_id =>
        match repo.resolve commit_id with
        | none => Except.error Err.resolution
        | some c => Except.ok (true, { d with commit := some c })
  else Except.ok (false, d)

/-- `Directory.deploy_diff`: apply each diff entry in order — `Deleted` →
`delete_file`, renames → `rename_file`, otherwise (added/modified) →
`copy_file` from the working tree. An uncaught transport exception stops the
loop; the error carries the directory state reached so far (files already
applied are not rolled back). -/
def Dir.deploy_diff (d : Dir) (diff : List DiffItem) (repo : Repo) :
    Except (Err × Dir) Dir :=
  match diff with
  | [] => Except.ok d
  | item :: rest =>
      let step : Except Err Dir :=
        if item.deleted_file then d.delete_file item.a_path
        else
          match item.rename_from, item.rename_to with
          | some f, some t => d.rename_file f t
          | _, _ => d.copy_file item.a_path (repo.source_contents item.a_path)
      match step with
      | Except.ok d' => d'.deploy_diff rest repo
      | Except.error e => Except.error (e, d)

/-- `Directory.deploy_tree`: copy every path of the listing from the working
tree to the target. -/
def Dir.deploy_tree (d : Dir) (tree : List String) (repo : Repo) :
    Except (Err × Dir) Dir :=
  match tree with
  | [] => Except.ok d
  | p :: rest =>
      match d.copy_file p (repo.source_contents p) with
      | Except.ok d' => d'.deploy_tree rest repo
      | Except.error e => Except.error (e, d)

/-- First stage of `Directory.deploy` (the `if self.commit is not None`
branch): diff against the cached `self.commit` when it is set, otherwise
deploy the full `ls_files` tree. -/
def Dir.apply_changes (d : Dir) (commit : Commit) (repo : Repo) : Except (Err × Dir) Dir :=
  match d.commit with
  | some c => d.deploy_diff (repo.diff c commit) repo
  | none => d.deploy_tree repo.ls_files repo

/-- `Directory.deploy`: apply the diff or full tree, then write the commit
marker with `commit.hexsha` and delete the lock file. Returns the final
directory state, or the state reached when an uncaught exception
interrupted it. -/
def Dir.deploy (d : Dir) (commit : Commit) (repo : Repo) : Except (Err × Dir) Dir :=
  match d.apply_changes commit repo with
  | Except.error e => Except.error e
  | Except.ok d1 =>
      match d1.write_new_file COMMIT_FILE commit.hexsha with
      | Except.error e => Except.error (e, d1)
      | Except.ok d2 =>
          match d2.delete_file LOCK_FILE with
          | Except.error e => Except.error (e, d2)
          | Except.ok d3 => Except.ok d3

/-- Classification of a target during the lock phase of `lock_dirs`. -/
inductive LockClass
  | lockedByUs
  | alreadyLocked
  | cannotLock
deriving DecidableEq, Repr

/-- Boolean test for the `already_locked_dirs` list. -/
def LockClass.isAlready : LockClass → Bool
  | LockClass.alreadyLocked => true
  | _ => false

/-- Boolean test for the `cannot_lock` list. -/
def LockClass.isCannot : LockClass → Bool
  | LockClass.cannotLock => true
  | _ => false

/-- One iteration of the `lock_dirs` loop for a single target: connect
(failure → `cannot_lock`), check for an existing lock (→ `already_locked`),
otherwise attempt the lock (`false` → `cannot_lock`). -/
def lockOne (d : Dir) : Dir × LockClass :=
  match d.connect with
  | Except.error _ => (d, LockClass.cannotLock)
  | Except.ok d0 =>
      if d0.check_locked then (d0, LockClass.alreadyLocked)
      else
        match d0.lock with
        | (true, d') => (d', LockClass.lockedByUs)
        | (false, d') => (d', LockClass.cannotLock)

/-- The `lock_dirs` loop body applied to every configured target in order
(every target is processed even after a conflict is found). -/
def lockPhase (dirs : List Dir) : List (Dir × LockClass) :=
  dirs.map lockOne

/-- Effect of `abort(locked_dirs, message)` on the full target list: only the
targets this run locked are aborted (their lock marker deleted); the others
are untouched. -/
def abortRun (cs : List (Dir × LockClass)) : List Dir :=
  cs.map (fun p => if p.2 = LockClass.lockedByUs then p.1.abort else p.1)

/-- `lock_dirs`: classify every target, then — if any target was already
locked, or failed to connect or to lock — abort every target this run locked
and return `None`; otherwise return the locked targets (all of them, in
configuration order). The second component is the final state of all targets. -/
def lock_dirs (dirs : List Dir) : Option (List Dir) × List Dir :=
  if (lockPhase dirs).any (fun p => p.2.isAlready) then (none, abortRun (lockPhase dirs))
  else if (lockPhase dirs).any (fun p => p.2.isCannot) then (none, abortRun (lockPhase dirs))
  else (some ((lockPhase dirs).map Prod.fst), (lockPhase dirs).map Prod.fst)

/-- The `check_dirs_configured` loop over `config.dirs`: call
`check_valid_commit` on each target, collecting its boolean verdict and the
updated target (commit cache). An uncaught exception from
`check_valid_commit` stops the loop; the error carries the state of all
targets at that point (earlier ones updated, the failing one and later ones
unchanged). -/
def check_dirs_run (dirs : List Dir) (repo : Repo) :
    Except (Err × List Dir) (List (Dir × Bool)) :=
  match dirs with
  | [] => Except.ok []
  | d :: rest =>
      match d.check_valid_commit repo with
      | Except.error e => Except.error (e, d :: rest)
      | Except.ok (b, d') =>
          match check_dirs_run rest repo with
          | Except.error (e, rest') => Except.error (e, d' :: rest')
          | Except.ok res => Except.ok ((d', b) :: res)

/-- `check_dirs_configured`: if any target's commit information is invalid
(`check_valid_commit` returned `false`), abort all locked targets (which at
this point are all configured targets) and return `false`; otherwise `true`.
The exception path of `check_valid_commit` propagates. -/
def check_dirs_configured (dirs : List Dir) (repo : Repo) :
    Except (Err × List Dir) (Bool × List Dir) :=
  match check_dirs_run dirs repo with
  | Except.error e => Except.error e
  | Except.ok res =>
      if res.any (fun p => !p.2) then
        Except.ok (false, res.map (fun p => p.1.abort))
      else Except.ok (true, res.map Prod.fst)

/-- The deploy loop at the bottom of `__main__`: deploy to each target in
order, with no exception handling — a transport exception during one
target's deploy propagates, so later targets are never attempted. On error
the carried list holds the partially-deployed failing target followed by the
untouched remaining targets. -/
def deploy_all (dirs : List Dir) (commit : Commit) (repo : Repo) :
    Except (Err × List Dir) (List Dir) :=
  match dirs with
  | [] => Except.ok []
  | d :: rest =>
      match d.deploy commit repo with
      | Except.error (e, dp) => Except.error (e, dp :: rest)
      | Except.ok d' =>
          match deploy_all rest commit repo with
          | Except.error (e, rest') => Except.error (e, d' :: rest')
          | Except.ok rest' => Except.ok (d' :: rest')

/-- How a run of the `__main__` block ends. `lockAbort`: `lock_dirs` returned
`None` and the process exited. `resolutionCrash`: `repo.commit(commit_id)`
raised, uncaught. `validationCrash`: `check_valid_commit` raised during
`check_dirs_configured`, uncaught. `validationAbort`: `check_dirs_configured`
returned `False` and the process exited after aborting. `deployCrash`: an
uncaught exception during some target's `deploy`. `done`: the deploy loop
finished. -/
inductive Outcome
  | lockAbort
  | resolutionCrash
  | validationCrash
  | validationAbort
  | deployCrash
  | done
deriving DecidableEq, Repr

/-- Final state of a run: how it ended and the final state of every
configured target (in configuration order). -/
structure RunResult where
  outcome : Outcome
  dirs : List Dir
deriving DecidableEq, Repr

/-- The `__main__` orchestration, modelled from the already-parsed
`commit_id` value (`none` = use `repo.head.commit`) and the presence of the
`h` flag (hard deploy). Order of events, as in the source: `lock_dirs`
FIRST; then resolve the desired commit (an invalid identifier raises,
uncaught, with every lock still in place); then, unless hard deploy,
`check_dirs_configured`; then the per-target deploy loop. The dead
`repo.__class__ is not Repo` and `commit.__class__ is not git.Commit`
branches (gitpython raises instead of returning another class) are not
reachable and are not modelled. -/
def runMain (cfgDirs : List Dir) (repo : Repo) (commitId : Option String)
    (hard : Bool) : RunResult :=
  match lock_dirs cfgDirs with
  | (none, finalDirs) => ⟨Outcome.lockAbort, finalDirs⟩
  | (some lockedDirs, _) =>
      let commitRes : Option Commit :=
        match commitId with
        | some cid => repo.resolve cid
        | none => some repo.head
      match commitRes with
      | none => ⟨Outcome.resolutionCrash, lockedDirs⟩
      | some commit =>
          let afterValidation : Except RunResult (List Dir) :=
            if hard then Except.ok lockedDirs
            else
              match check_dirs_configured lockedDirs repo with
              | Except.error (_, dirsAtCrash) =>
                  Except.error ⟨Outcome.validationCrash, dirsAtCrash⟩
              | Except.ok (false, dirsAborted) =>
                  Except.error ⟨Outcome.validationAbort, dirsAborted⟩
              | Except.ok (true, dirsOk) => Except.ok dirsOk
          match afterValidation with
          | Except.error r => r
          | Except.ok dirs2 =>
              match deploy_all dirs2 commit repo with
              | Except.error (_, dirsAtCrash) => ⟨Outcome.deployCrash, dirsAtCrash⟩
              | Except.ok dirsDone => ⟨Outcome.done, dirsDone⟩

theorem eraseF_of_lookupF_none (fs : Files) (k : String) (h : lookupF fs k = none) :
    eraseF fs k = fs := by
  induction fs with
  | nil => rfl
  | cons p rest ih =>
      obtain ⟨a, b⟩ := p
      simp only [lookupF] at h
      by_cases hak : a = k
      · rw [if_pos hak] at h
        cases h
      · rw [if_neg hak] at h
        simp only [eraseF, if_neg hak]
        rw [ih h]

/-- When the lock is absent, `delete_file` is a complete no-op (the whole
deletion is gated on `check_locked`). -/
theorem delete_file_not_locked (d : Dir) (f : String) (h : d.check_locked = false) :
    d.delete_file f = Except.ok d := by
  simp [Dir.delete_file, h]

/-- On the local transport, deleting a missing file is a silent no-op — it
never raises. -/
theorem delete_file_loc_missing (d : Dir) (f : String) (hm : d.mode = ConnMode.loc)
    (hn : lookupF d.files f = none) : d.delete_file f = Except.ok d := by
  obtain ⟨p, m, fs, c, co, wo, fc⟩ := d
  cases hm
  by_cases hl : (Dir.mk p ConnMode.loc fs c co wo fc).check_locked
  · simp [Dir.delete_file, hl, eraseF_of_lookupF_none fs f hn]
  · simp [Dir.delete_file, hl]

/-- On the FTP transport, deleting a missing file while the lock is held
raises (`ftplib` `error_perm`). -/
theorem delete_file_ftp_missing (d : Dir) (f : String) (hm : d.mode = ConnMode.ftp)
    (hl : d.check_locked = true) (hn : lookupF d.files f = none) :
    d.delete_file f = Except.error Err.deleteErr := by
  obtain ⟨p, m, fs, c, co, wo, fc⟩ := d
  cases hm
  simp [Dir.delete_file, hl, hn]

/-- Deleting the lock file itself never raises: it just erases the lock
marker (a no-op when the marker is absent, since the gate fails). -/
theorem delete_file_lock_ok (d : Dir) :
    d.delete_file LOCK_FILE = Except.ok { d with files := eraseF d.files LOCK_FILE } := by
  unfold Dir.delete_file
  by_cases h : d.check_locked
  · rw [if_pos h]
    cases hm : d.mode
    · rfl
    · unfold Dir.check_locked Dir.check_file_exists at h
      cases hl : lookupF d.files LOCK_FILE with
      | none => rw [hl] at h; cases h
      | some v => rfl
  · rw [if_neg h]
    unfold Dir.check_locked Dir.check_file_exists at h
    have hnone : lookupF d.files LOCK_FILE = none := by
      cases hl : lookupF d.files LOCK_FILE with
      | none => rfl
      | some v => rw [hl] at h; exact absurd rfl h
    rw [eraseF_of_lookupF_none d.files LOCK_FILE hnone]

/-- `Directory.abort` just erases the lock marker. -/
theorem abort_files (d : Dir) :
    d.abort = { d with files := eraseF d.files LOCK_FILE } := by
  unfold Dir.abort
  rw [delete_file_lock_ok]

/-- After `Directory.abort` the lock marker is gone. -/
theorem abort_not_locked (d : Dir) : d.abort.check_locked = false := by
  rw [abort_files]
  simp [Dir.check_locked, Dir.check_file_exists, lookupF_eraseF_self]

/-- Exhaustive description of one lock-phase iteration: a target is either
left untouched and unlockable (connect failure or lock-write failure), or
found already locked and left untouched, or locked by this run (its lock
marker written). -/
theorem lockOne_cases (d : Dir) :
    lockOne d = (d, LockClass.cannotLock) ∨
      (lockOne d = (d, LockClass.alreadyLocked) ∧ d.check_locked = true) ∨
      (lockOne d = ({ d with files := setF d.files LOCK_FILE "locked" },
          LockClass.lockedByUs) ∧ d.check_locked = false) := by
  by_cases hl : d.check_locked <;> by_cases hw : d.write_ok <;>
    by_cases hc : d.connect_ok <;> cases hm : d.mode <;>
      simp [lockOne, Dir.connect, Dir.lock, Dir.write_new_file, hl, hw, hc, hm]

/-- The final state of one target after a lock phase that ends in the abort
branch: targets this run locked are aborted, the rest are as `lockOne` left
them. -/
def lockOutcomeDir (d : Dir) : Dir :=
  if (lockOne d).2 = LockClass.lockedByUs then (lockOne d).1.abort else (lockOne d).1

theorem abortRun_lockPhase (dirs : List Dir) :
    abortRun (lockPhase dirs) = dirs.map lockOutcomeDir := by
  unfold abortRun lockPhase
  rw [List.map_map]
  rfl

/-- After an aborted lock phase, every target's non-lock files are exactly as
before, and a target that is locked afterwards was already locked before. -/
theorem lockOutcomeDir_spec (d : Dir) :
    eraseF (lockOutcomeDir d).files LOCK_FILE = eraseF d.files LOCK_FILE ∧
      ((lockOutcomeDir d).check_locked = true → d.check_locked = true) := by
  rcases lockOne_cases d with hc | ⟨hc, hl⟩ | ⟨hc, hl⟩
  · unfold lockOutcomeDir
    rw [hc]
    simp
  · unfold lockOutcomeDir
    rw [hc]
    simp
  · unfold lockOutcomeDir
    rw [hc]
    constructor
    · show eraseF (Dir.abort { d with files := setF d.files LOCK_FILE "locked" }).files
          LOCK_FILE = eraseF d.files LOCK_FILE
      rw [abort_files]
      show eraseF (eraseF (setF d.files LOCK_FILE "locked") LOCK_FILE) LOCK_FILE =
          eraseF d.files LOCK_FILE
      rw [eraseF_setF, eraseF_eraseF]
    · intro hcontra
      have h2 : (Dir.abort { d with files := setF d.files LOCK_FILE "locked" }).check_locked
          = true := hcontra
      rw [abort_not_locked] at h2
      cases h2

theorem forall2_map_self {α β : Type} {R : α → β → Prop} (f : α → β)
    (h : ∀ a, R a (f a)) : ∀ l : List α, List.Forall₂ R l (l.map f)
  | [] => List.Forall₂.nil
  | a :: l => List.Forall₂.cons (h a) (forall2_map_self f h l)

/-- A target that is already locked is never classified "locked by us". -/
theorem lockOne_snd_ne_lockedByUs (d : Dir) (h : d.check_locked = true) :
    (lockOne d).2 ≠ LockClass.lockedByUs := by
  rcases lockOne_cases d with hc | ⟨hc, _⟩ | ⟨hc, hl⟩
  · rw [hc]
    simp
  · rw [hc]
    simp
  · rw [h] at hl
    cases hl

/-- If any target is classified other than "locked by us", `lock_dirs` takes
the abort branch: it returns `None` and every target this run locked is
aborted. -/
theorem lock_dirs_abort (dirs : List Dir)
    (h : ∃ p ∈ lockPhase dirs, p.2 ≠ LockClass.lockedByUs) :
    lock_dirs dirs = (none, abortRun (lockPhase dirs)) := by
  obtain ⟨p, hmem, hp⟩ := h
  unfold lock_dirs
  by_cases ha : (lockPhase dirs).any (fun q => q.2.isAlready)
  · rw [if_pos ha]
  · rw [if_neg ha]
    have hc : (lockPhase dirs).any (fun q => q.2.isCannot) = true := by
      rw [List.any_eq_true]
      refine ⟨p, hmem, ?_⟩
      cases hq : p.2
      · exact absurd hq hp
      · exact absurd (List.any_eq_true.mpr ⟨p, hmem, by rw [hq]; rfl⟩) ha
      · rfl
    rw [if_pos hc]

/-- A target classified "locked by us" carries a lock marker afterwards. -/
theorem lockOne_lockedByUs_locked (d : Dir) (h : (lockOne d).2 = LockClass.lockedByUs) :
    (lockOne d).1.check_locked = true := by
  rcases lockOne_cases d with hc | ⟨hc, _⟩ | ⟨hc, _⟩
  · rw [hc] at h
    cases h
  · rw [hc] at h
    cases h
  · rw [hc]
    simp [Dir.check_locked, Dir.check_file_exists, lookupF_setF_self]

/-- When `lock_dirs` succeeds, every returned target holds a lock marker
written by this run. -/
theorem lock_dirs_some_all_locked (dirs : List Dir) (L : List Dir)
    (h : (lock_dirs dirs).1 = some L) :
    ∀ d' ∈ L, d'.check_locked = true := by
  unfold lock_dirs at h
  by_cases ha : (lockPhase dirs).any (fun q => q.2.isAlready)
  · rw [if_pos ha] at h
    cases h
  · rw [if_neg ha] at h
    by_cases hc : (lockPhase dirs).any (fun q => q.2.isCannot)
    · rw [if_pos hc] at h
      cases h
    · rw [if_neg hc] at h
      have hL : L = (lockPhase dirs).map Prod.fst := by
        have := h
        simp only at this
        exact (Option.some.injEq _ _ ▸ this).symm
      intro d' hd'
      rw [hL] at hd'
      obtain ⟨p, hpmem, hpd⟩ := List.mem_map.mp hd'
      have hclass : p.2 = LockClass.lockedByUs := by
        cases hq : p.2
        · rfl
        · exact absurd (List.any_eq_true.mpr ⟨p, hpmem, by rw [hq]; rfl⟩) ha
        · exact absurd (List.any_eq_true.mpr ⟨p, hpmem, by rw [hq]; rfl⟩) hc
      obtain ⟨d0, hd0mem, hd0⟩ := List.mem_map.mp hpmem
      rw [← hpd, ← hd0]
      rw [← hd0] at hclass
      exact lockOne_lockedByUs_locked d0 hclass

/-- Claim C1: all-or-nothing lock gate with full rollback — whenever some
configured target already has a lock marker at lock-phase start, the run ends
with the lock-phase abort (no target is deployed to), every target's files
other than the lock marker are exactly as before (commit markers and content
files untouched), and any target still carrying a lock marker afterwards was
already locked before the run (every lock this run acquired was removed by
abort). -/
theorem C1_lock_gate_rollback (dirs : List Dir) (repo : Repo) (cid : Option String)
    (hard : Bool) (h : ∃ d ∈ dirs, d.check_locked = true) :
    (runMain dirs repo cid hard).outcome = Outcome.lockAbort ∧
      List.Forall₂
        (fun d0 d1 =>
          eraseF d1.files LOCK_FILE = eraseF d0.files LOCK_FILE ∧
            (d1.check_locked = true → d0.check_locked = true))
        dirs (runMain dirs repo cid hard).dirs := by
  obtain ⟨d, hmem, hl⟩ := h
  have hmem2 : lockOne d ∈ lockPhase dirs := List.mem_map_of_mem lockOne hmem
  have habort : lock_dirs dirs = (none, abortRun (lockPhase dirs)) :=
    lock_dirs_abort dirs ⟨lockOne d, hmem2, lockOne_snd_ne_lockedByUs d hl⟩
  have hrun : runMain dirs repo cid hard =
      ⟨Outcome.lockAbort, abortRun (lockPhase dirs)⟩ := by
    unfold runMain
    rw [habort]
  rw [hrun]
  refine ⟨rfl, ?_⟩
  show List.Forall₂ _ dirs (abortRun (lockPhase dirs))
  rw [abortRun_lockPhase]
  exact forall2_map_self lockOutcomeDir (fun d0 => lockOutcomeDir_spec d0) dirs

/-- A local target that is already locked before the run starts. -/
def exDirLockedC1 : Dir :=
  { path := "t1", mode := ConnMode.loc, files := [(LOCK_FILE, "locked")],
    commit := none, connect_ok := true, write_ok := true, fail_copy := [] }

/-- A repository whose provider resolves no identifier. -/
def exRepoNone : Repo :=
  { resolve := fun _ => none, head := ⟨"abcd"⟩, diff := fun _ _ => [],
    ls_files := [], source_contents := fun _ => "", spec_listFiles := fun _ => [] }

theorem C1_lock_gate_rollback_witness :
    (∃ d ∈ [exDirLockedC1], d.check_locked = true) ∧
      ((runMain [exDirLockedC1] exRepoNone none false).outcome = Outcome.lockAbort ∧
        List.Forall₂
          (fun d0 d1 =>
            eraseF d1.files LOCK_FILE = eraseF d0.files LOCK_FILE ∧
              (d1.check_locked = true → d0.check_locked = true))
          [exDirLockedC1] (runMain [exDirLockedC1] exRepoNone none false).dirs) :=
  ⟨⟨exDirLockedC1, by decide, by decide⟩,
    C1_lock_gate_rollback [exDirLockedC1] exRepoNone none false
      ⟨exDirLockedC1, by decide, by decide⟩⟩

/-- Claim C2: successful-deploy postcondition — whenever a target's `deploy`
completes successfully, its commit marker file contains exactly the desired
revision's hex identifier and its lock marker file no longer exists. -/
theorem C2_deploy_postcondition (d : Dir) (c : Commit) (repo : Repo) (d' : Dir)
    (h : d.deploy c repo = Except.ok d') :
    lookupF d'.files COMMIT_FILE = some c.hexsha ∧
      lookupF d'.files LOCK_FILE = none := by
  unfold Dir.deploy at h
  cases happ : d.apply_changes c repo with
  | error e =>
      rw [happ] at h
      cases h
  | ok d1 =>
      rw [happ] at h
      by_cases hw : d1.write_ok
      · simp only [Dir.write_new_file, if_pos hw, delete_file_lock_ok] at h
        cases h
        constructor
        · rw [lookupF_eraseF_ne _ _ _ (by decide : COMMIT_FILE ≠ LOCK_FILE),
            lookupF_setF_self]
        · exact lookupF_eraseF_self _ _
      · simp only [Dir.write_new_file, if_neg hw] at h
        cases h

/-- A locked local target ready for a fresh full-tree deploy. -/
def exDirC2 : Dir :=
  { path := "t", mode := ConnMode.loc, files := [(LOCK_FILE, "locked")],
    commit := none, connect_ok := true, write_ok := true, fail_copy := [] }

/-- A one-file repository whose head is `"aa"`. -/
def exRepoC2 : Repo :=
  { resolve := fun _ => some ⟨"aa"⟩, head := ⟨"aa"⟩, diff := fun _ _ => [],
    ls_files := ["a.txt"], source_contents := fun _ => "x",
    spec_listFiles := fun _ => ["a.txt"] }

/-- The state of `exDirC2` after a successful deploy of commit `"aa"`. -/
def exDirC2res : Dir :=
  { path := "t", mode := ConnMode.loc,
    files := [(COMMIT_FILE, "aa"), ("a.txt", "x")],
    commit := none, connect_ok := true, write_ok := true, fail_copy := [] }

theorem C2_deploy_postcondition_witness :
    exDirC2.deploy ⟨"aa"⟩ exRepoC2 = Except.ok exDirC2res ∧
      (lookupF exDirC2res.files COMMIT_FILE = some (Commit.mk "aa").hexsha ∧
        lookupF exDirC2res.files LOCK_FILE = none) :=
  ⟨by rfl, C2_deploy_postcondition exDirC2 ⟨"aa"⟩ exRepoC2 exDirC2res (by rfl)⟩

/-- An unlocked, lockable local target with no files at all. -/
def exDirC3 : Dir :=
  { path := "t", mode := ConnMode.loc, files := [], commit := none,
    connect_ok := true, write_ok := true, fail_copy := [] }

/-- `exDirC3` after this run wrote its lock marker. -/
def exDirC3locked : Dir :=
  { path := "t", mode := ConnMode.loc, files := [(LOCK_FILE, "locked")],
    commit := none, connect_ok := true, write_ok := true, fail_copy := [] }

/-- Claim C3 counterexample: with the unresolvable desired identifier "zz",
the run does end in a resolution failure — but only AFTER the lock phase: the
target, unlocked before the run, carries a lock marker written by this run
when resolution fails, contradicting "no lock marker has been written to any
target before the identifier is resolved". -/
theorem C3_counterexample :
    exDirC3.check_locked = false ∧
      (runMain [exDirC3] exRepoNone (some "zz") false).outcome =
        Outcome.resolutionCrash ∧
      (runMain [exDirC3] exRepoNone (some "zz") false).dirs = [exDirC3locked] ∧
      exDirC3locked.check_locked = true := by
  refine ⟨by decide, by rfl, by rfl, by decide⟩

/-- Claim C3 amended: in the code the lock phase PRECEDES resolution — when
every target is lockable and the desired revision identifier is invalid, the
run terminates with an uncaught resolution error only after all targets have
been locked, and every lock acquired by this run is retained (no rollback on
a resolution failure). -/
theorem C3_amended_lock_precedes_resolution (dirs L : List Dir) (repo : Repo)
    (cid : String) (hard : Bool)
    (hlock : lock_dirs dirs = (some L, L))
    (hres : repo.resolve cid = none) :
    (runMain dirs repo (some cid) hard).outcome = Outcome.resolutionCrash ∧
      ∀ d' ∈ (runMain dirs repo (some cid) hard).dirs, d'.check_locked = true := by
  have hrun : runMain dirs repo (some cid) hard = ⟨Outcome.resolutionCrash, L⟩ := by
    unfold runMain
    rw [hlock]
    simp [hres]
  rw [hrun]
  exact ⟨rfl, lock_dirs_some_all_locked dirs L (by rw [hlock])⟩

theorem C3_amended_witness :
    (lock_dirs [exDirC3] = (some [exDirC3locked], [exDirC3locked]) ∧
        exRepoNone.resolve "zz" = none) ∧
      ((runMain [exDirC3] exRepoNone (some "zz") false).outcome =
          Outcome.resolutionCrash ∧
        ∀ d' ∈ (runMain [exDirC3] exRepoNone (some "zz") false).dirs,
          d'.check_locked = true) :=
  ⟨⟨by rfl, by rfl⟩,
    C3_amended_lock_precedes_resolution [exDirC3] [exDirC3locked] exRepoNone "zz" false
      (by rfl) (by rfl)⟩

/-- An empty local target for the commit-marker round trip. -/
def exDirC4 : Dir :=
  { path := "t", mode := ConnMode.loc, files := [], commit := none,
    connect_ok := true, write_ok := true, fail_copy := [] }

/-- `exDirC4` after the commit marker `"ab"` was written. -/
def exDirC4w : Dir :=
  { path := "t", mode := ConnMode.loc, files := [(COMMIT_FILE, "ab")],
    commit := none, connect_ok := true, write_ok := true, fail_copy := [] }

/-- Claim C4 counterexample: writing the commit marker `"ab"` and reading it
back yields `"a"`, not `"ab"` — the writer appends no newline and the reader
drops the final character unconditionally, so the round trip loses the
identifier's last character. -/
theorem C4_counterexample :
    exDirC4.write_new_file COMMIT_FILE "ab" = Except.ok exDirC4w ∧
      exDirC4w.read_root_dir_file_contents COMMIT_FILE = Except.ok "a" ∧
      ("a" : String) ≠ "ab" := by
  refine ⟨by rfl, by rfl, by decide⟩

/-- Claim C4 amended: the write/read round trip for the commit marker
returns the written string with its final character removed —
`_read_root_dir_file_contents` strips the last character unconditionally
(`contents[:-1]`), and `write_new_file` appends no trailing newline, so one
character of the identifier is lost. -/
theorem C4_amended_round_trip (d : Dir) (s : String) (d' : Dir)
    (h : d.write_new_file COMMIT_FILE s = Except.ok d') :
    d'.read_root_dir_file_contents COMMIT_FILE = Except.ok (dropLastChar s) := by
  unfold Dir.write_new_file at h
  by_cases hw : d.write_ok
  · rw [if_pos hw] at h
    cases h
    unfold Dir.read_root_dir_file_contents
    rw [lookupF_setF_self]
  · rw [if_neg hw] at h
    cases h

theorem C4_amended_round_trip_witness :
    exDirC4.write_new_file COMMIT_FILE "ab" = Except.ok exDirC4w ∧
      exDirC4w.read_root_dir_file_contents COMMIT_FILE =
        Except.ok (dropLastChar "ab") :=
  ⟨by rfl, C4_amended_round_trip exDirC4 "ab" exDirC4w (by rfl)⟩

/-- A full-tree deploy leaves filenames outside the listing untouched. -/
theorem deploy_tree_not_mem (tree : List String) (d : Dir) (repo : Repo) (d' : Dir)
    (h : d.deploy_tree tree repo = Except.ok d') (k : String) (hk : k ∉ tree) :
    lookupF d'.files k = lookupF d.files k := by
  induction tree generalizing d with
  | nil =>
      cases h
      rfl
  | cons p rest ih =>
      unfold Dir.deploy_tree at h
      cases hc : d.copy_file p (repo.source_contents p) with
      | error e =>
          rw [hc] at h
          cases h
      | ok d1 =>
          rw [hc] at h
          have hkr : k ∉ rest := fun hr => hk (List.mem_cons_of_mem p hr)
          have hkp : k ≠ p := fun he => hk (he ▸ List.mem_cons_self p rest)
          have h1 : lookupF d'.files k = lookupF d1.files k := ih d1 h hkr
          unfold Dir.copy_file at hc
          by_cases hf : p ∈ d.fail_copy
          · rw [if_pos hf] at hc
            cases hc
          · rw [if_neg hf] at hc
            cases hc
            rw [h1]
            exact lookupF_setF_ne d.files p k (repo.source_contents p) hkp

/-- After a successful full-tree deploy, every filename in the listing holds
the working-tree contents streamed by `copy_file`. -/
theorem deploy_tree_mem (tree : List String) (d : Dir) (repo : Repo) (d' : Dir)
    (h : d.deploy_tree tree repo = Except.ok d') (k : String) (hk : k ∈ tree) :
    lookupF d'.files k = some (repo.source_contents k) := by
  induction tree generalizing d with
  | nil => cases hk
  | cons p rest ih =>
      unfold Dir.deploy_tree at h
      cases hc : d.copy_file p (repo.source_contents p) with
      | error e =>
          rw [hc] at h
          cases h
      | ok d1 =>
          rw [hc] at h
          by_cases hkr : k ∈ rest
          · exact ih d1 h hkr
          · have hkp : k = p := by
              rcases List.mem_cons.mp hk with h1 | h1
              · exact h1
              · exact absurd h1 hkr
            subst hkp
            have h1 : lookupF d'.files k = lookupF d1.files k :=
              deploy_tree_not_mem rest d1 repo d' h k hkr
            unfold Dir.copy_file at hc
            by_cases hf : k ∈ d.fail_copy
            · rw [if_pos hf] at hc
              cases hc
            · rw [if_neg hf] at hc
              cases hc
              rw [h1]
              exact lookupF_setF_self d.files k (repo.source_contents k)

/-- A repository whose index listing (`ls_files`) disagrees with the
provider's file listing at the desired revision `"r2"`. -/
def exRepoC5 : Repo :=
  { resolve := fun _ => some ⟨"r2"⟩, head := ⟨"r2"⟩, diff := fun _ _ => [],
    ls_files := ["a.txt"], source_contents := fun _ => "x",
    spec_listFiles := fun _ => ["a.txt", "b.txt"] }

/-- A locked local target with no commit marker, about to be hard-deployed. -/
def exDirC5 : Dir :=
  { path := "t", mode := ConnMode.loc, files := [(LOCK_FILE, "locked")],
    commit := none, connect_ok := true, write_ok := true, fail_copy := [] }

/-- `exDirC5` after the full-tree deploy of `"r2"`. -/
def exDirC5res : Dir :=
  { path := "t", mode := ConnMode.loc,
    files := [(COMMIT_FILE, "r2"), ("a.txt", "x")],
    commit := none, connect_ok := true, write_ok := true, fail_copy := [] }

/-- Claim C5 counterexample: the full-tree deploy copies `git ls_files` (the
index listing), not the provider's listing at the desired revision — the
file `"b.txt"` is listed at revision `"r2"` but is never copied to the
target, so the set of files copied is NOT the revision's file listing. -/
theorem C5_counterexample :
    exDirC5.commit = none ∧
      exDirC5.deploy ⟨"r2"⟩ exRepoC5 = Except.ok exDirC5res ∧
      "b.txt" ∈ exRepoC5.spec_listFiles ⟨"r2"⟩ ∧
      lookupF exDirC5res.files "b.txt" = none := by
  refine ⟨by rfl, by rfl, by decide, by rfl⟩

/-- Claim C5 amended: for a target deploying with no cached commit (no
commit marker validated — in particular under hard deploy), `deploy`
performs a full-tree copy of the repository's INDEX listing
(`git ls_files`), not of the provider's listing at the desired revision:
every filename in `ls_files` (other than the two marker files) ends up at
the target with the working-tree contents. -/
theorem C5_amended_full_tree_from_index (d : Dir) (c : Commit) (repo : Repo)
    (d' : Dir) (hcm : d.commit = none) (h : d.deploy c repo = Except.ok d')
    (k : String) (hk : k ∈ repo.ls_files)
    (hk1 : k ≠ COMMIT_FILE) (hk2 : k ≠ LOCK_FILE) :
    lookupF d'.files k = some (repo.source_contents k) := by
  unfold Dir.deploy at h
  unfold Dir.apply_changes at h
  rw [hcm] at h
  cases happ : d.deploy_tree repo.ls_files repo with
  | error e =>
      rw [happ] at h
      cases h
  | ok d1 =>
      rw [happ] at h
      by_cases hw : d1.write_ok
      · simp only [Dir.write_new_file, if_pos hw, delete_file_lock_ok] at h
        cases h
        rw [lookupF_eraseF_ne _ _ _ hk2, lookupF_setF_ne _ _ _ _ hk1]
        exact deploy_tree_mem repo.ls_files d repo d1 happ k hk
      · simp only [Dir.write_new_file, if_neg hw] at h
        cases h

theorem C5_amended_witness :
    (exDirC5.commit = none ∧ exDirC5.deploy ⟨"r2"⟩ exRepoC5 = Except.ok exDirC5res ∧
        "a.txt" ∈ exRepoC5.ls_files ∧ ("a.txt" : String) ≠ COMMIT_FILE ∧
        ("a.txt" : String) ≠ LOCK_FILE) ∧
      lookupF exDirC5res.files "a.txt" = some (exRepoC5.source_contents "a.txt") :=
  ⟨⟨by rfl, by rfl, by decide, by decide, by decide⟩,
    C5_amended_full_tree_from_index exDirC5 ⟨"r2"⟩ exRepoC5 exDirC5res (by rfl)
      (by rfl) "a.txt" (by decide) (by decide) (by decide)⟩

/-- A local target whose commit marker holds unresolvable contents. -/
def exDirC6 : Dir :=
  { path := "t", mode := ConnMode.loc, files := [(COMMIT_FILE, "zzzz")],
    commit := none, connect_ok := true, write_ok := true, fail_copy := [] }

/-- Claim C6 (code bug evidence): when the commit marker exists but its
contents (here `"zzz"` after the final-character strip) cannot be resolved,
`check_valid_commit` does NOT return `false` — the `repo.commit` call has no
exception handler, so the provider's resolution exception propagates and the
check crashes. -/
theorem C6_crash_on_unresolvable_marker :
    exDirC6.check_valid_commit exRepoNone = Except.error Err.resolution ∧
      ∀ b d', exDirC6.check_valid_commit exRepoNone ≠ Except.ok (b, d') := by
  refine ⟨by rfl, ?_⟩
  intro b d' hcontra
  rw [show exDirC6.check_valid_commit exRepoNone = Except.error Err.resolution
    from rfl] at hcontra
  cases hcontra

/-- First configured target: its copy of `"a.txt"` will fail (transport
error mid-deploy). -/
def exDirC7a : Dir :=
  { path := "t1", mode := ConnMode.loc, files := [], commit := none,
    connect_ok := true, write_ok := true, fail_copy := ["a.txt"] }

/-- Second configured target: perfectly healthy. -/
def exDirC7b : Dir :=
  { path := "t2", mode := ConnMode.loc, files := [], commit := none,
    connect_ok := true, write_ok := true, fail_copy := [] }

/-- `exDirC7a` after this run locked it. -/
def exDirC7aL : Dir :=
  { path := "t1", mode := ConnMode.loc, files := [(LOCK_FILE, "locked")],
    commit := none, connect_ok := true, write_ok := true, fail_copy := ["a.txt"] }

/-- `exDirC7b` after this run locked it. -/
def exDirC7bL : Dir :=
  { path := "t2", mode := ConnMode.loc, files := [(LOCK_FILE, "locked")],
    commit := none, connect_ok := true, write_ok := true, fail_copy := [] }

/-- The repository for the two-target deploy-failure run. -/
def exRepoC7 : Repo :=
  { resolve := fun _ => some ⟨"r"⟩, head := ⟨"r"⟩, diff := fun _ _ => [],
    ls_files := ["a.txt"], source_contents := fun _ => "x",
    spec_listFiles := fun _ => ["a.txt"] }

/-- Claim C7 counterexample: with two locked targets, a transport failure
during the first target's deploy ends the whole run — the second target's
deploy is never attempted: it remains locked and without a commit marker,
and the run records no per-target outcome for it. -/
theorem C7_counterexample :
    (runMain [exDirC7a, exDirC7b] exRepoC7 none true).outcome =
        Outcome.deployCrash ∧
      (runMain [exDirC7a, exDirC7b] exRepoC7 none true).dirs =
        [exDirC7aL, exDirC7bL] ∧
      lookupF exDirC7bL.files COMMIT_FILE = none ∧
      exDirC7bL.check_locked = true := by
  refine ⟨by rfl, by rfl, by rfl, by decide⟩

/-- Claim C7 amended: the deploy loop has no exception handling, so an
uncaught transport error during one target's deploy terminates the loop —
every target after it in configuration order is returned exactly as it was
(its deploy is never attempted), and no per-target failure is recorded. -/
theorem C7_amended_failure_stops_loop (d : Dir) (rest : List Dir) (c : Commit)
    (repo : Repo) (e : Err) (dp : Dir)
    (h : d.deploy c repo = Except.error (e, dp)) :
    deploy_all (d :: rest) c repo = Except.error (e, dp :: rest) := by
  unfold deploy_all
  rw [h]

theorem C7_amended_witness :
    exDirC7aL.deploy ⟨"r"⟩ exRepoC7 = Except.error (Err.copyErr, exDirC7aL) ∧
      deploy_all [exDirC7aL, exDirC7bL] ⟨"r"⟩ exRepoC7 =
        Except.error (Err.copyErr, [exDirC7aL, exDirC7bL]) :=
  ⟨by rfl,
    C7_amended_failure_stops_loop exDirC7aL [exDirC7bL] ⟨"r"⟩ exRepoC7
      Err.copyErr exDirC7aL (by rfl)⟩

/-- A locked local target holding only its lock marker. -/
def exDirC8 : Dir :=
  { path := "t", mode := ConnMode.loc, files := [(LOCK_FILE, "locked")],
    commit := none, connect_ok := true, write_ok := true, fail_copy := [] }

/-- A locked FTP target holding only its lock marker. -/
def exDirC8ftp : Dir :=
  { path := "t", mode := ConnMode.ftp, files := [(LOCK_FILE, "locked")],
    commit := none, connect_ok := true, write_ok := true, fail_copy := [] }

/-- Claim C8 counterexample: on the LOCAL transport, deleting a content file
(`"data.txt"`, not the lock marker) that does not exist at the target is NOT
an error — the `os.path.exists` guard makes it a silent no-op, contradicting
"deleting any other file that does not exist at the target is an error". -/
theorem C8_counterexample :
    lookupF exDirC8.files "data.txt" = none ∧
      ("data.txt" : String) ≠ LOCK_FILE ∧
      exDirC8.delete_file "data.txt" = Except.ok exDirC8 := by
  refine ⟨by rfl, by decide, by rfl⟩

/-- Claim C8 amended: deleting the lock marker when it is already absent is
a no-op (the whole delete is gated on the lock's presence); deleting any
other missing file is an error on the FTP transport but a silent no-op on
the local transport. -/
theorem C8_amended_delete_semantics :
    (∀ d : Dir, d.check_locked = false → d.delete_file LOCK_FILE = Except.ok d) ∧
      (∀ (d : Dir) (f : String), d.mode = ConnMode.loc →
        lookupF d.files f = none → d.delete_file f = Except.ok d) ∧
      (∀ (d : Dir) (f : String), d.mode = ConnMode.ftp → d.check_locked = true →
        lookupF d.files f = none → d.delete_file f = Except.error Err.deleteErr) :=
  ⟨fun d h => delete_file_not_locked d LOCK_FILE h,
    fun d f hm hn => delete_file_loc_missing d f hm hn,
    fun d f hm hl hn => delete_file_ftp_missing d f hm hl hn⟩

theorem C8_amended_witness :
    (exDirC3.check_locked = false ∧
        exDirC3.delete_file LOCK_FILE = Except.ok exDirC3) ∧
      (exDirC8.mode = ConnMode.loc ∧ lookupF exDirC8.files "data.txt" = none ∧
        exDirC8.delete_file "data.txt" = Except.ok exDirC8) ∧
      (exDirC8ftp.mode = ConnMode.ftp ∧ exDirC8ftp.check_locked = true ∧
        lookupF exDirC8ftp.files "data.txt" = none ∧
        exDirC8ftp.delete_file "data.txt" = Except.error Err.deleteErr) :=
  ⟨⟨by rfl, C8_amended_delete_semantics.1 exDirC3 (by rfl)⟩,
    ⟨by rfl, by rfl,
      C8_amended_delete_semantics.2.1 exDirC8 "data.txt" (by rfl) (by rfl)⟩,
    ⟨by rfl, by rfl, by rfl,
      C8_amended_delete_semantics.2.2 exDirC8ftp "data.txt" (by rfl) (by rfl) (by rfl)⟩⟩

/-- An unlocked, lockable local target whose commit marker holds
unresolvable contents. -/
def exDirC9 : Dir :=
  { path := "t", mode := ConnMode.loc, files := [(COMMIT_FILE, "zzzz")],
    commit := none, connect_ok := true, write_ok := true, fail_copy := [] }

/-- `exDirC9` after this run locked it. -/
def exDirC9L : Dir :=
  { path := "t", mode := ConnMode.loc,
    files := [(LOCK_FILE, "locked"), (COMMIT_FILE, "zzzz")],
    commit := none, connect_ok := true, write_ok := true, fail_copy := [] }

/-- Claim C9 (code bug evidence): with hard deploy unset and a locked target
whose commit marker contents are unresolvable, the validation phase crashes
(the resolution exception from `check_valid_commit` propagates) BEFORE any
deploy — but without running `abort`, so the lock this run acquired is NOT
removed, contradicting "the run aborts — removing every lock this run
acquired". -/
theorem C9_validation_crash_retains_lock :
    (runMain [exDirC9] exRepoNone none false).outcome =
        Outcome.validationCrash ∧
      (runMain [exDirC9] exRepoNone none false).dirs = [exDirC9L] ∧
      exDirC9L.check_locked = true ∧
      lookupF exDirC9L.files COMMIT_FILE = some "zzzz" := by
  refine ⟨by rfl, by rfl, by decide, by rfl⟩

/-- Claim C10: every file deletion is gated on the lock marker's presence —
when a target's lock marker is absent, `delete_file` removes nothing for ANY
filename (the target is returned unchanged), and on the local transport
deleting a missing file never raises. -/
theorem C10_delete_gated_on_lock :
    (∀ (d : Dir) (f : String), d.check_locked = false →
        d.delete_file f = Except.ok d) ∧
      (∀ (d : Dir) (f : String), d.mode = ConnMode.loc →
        lookupF d.files f = none → d.delete_file f = Except.ok d) :=
  ⟨fun d f h => delete_file_not_locked d f h,
    fun d f hm hn => delete_file_loc_missing d f hm hn⟩

theorem C10_delete_gated_on_lock_witness :
    (exDirC9.check_locked = false ∧
        exDirC9.delete_file COMMIT_FILE = Except.ok exDirC9) ∧
      (exDirC9L.mode = ConnMode.loc ∧ lookupF exDirC9L.files "nope.txt" = none ∧
        exDirC9L.delete_file "nope.txt" = Except.ok exDirC9L) :=
  ⟨⟨by rfl, C10_delete_gated_on_lock.1 exDirC9 COMMIT_FILE (by rfl)⟩,
    ⟨by rfl, by rfl,
      C10_delete_gated_on_lock.2 exDirC9L "nope.txt" (by rfl) (by rfl)⟩⟩
